import Mathlib

/-!
Shallow embedding of the Time Series Insights Environment resource adapter
from `azurerm/internal/services/timeseriesinsights/resource_time_series_insights_environment.go`,
together with proofs of its specified properties.

Go machine integers are modelled as `Int` with explicit two's-complement
truncation where the source converts between widths; fallible Go calls are
modelled with `Except`/`Option`; a Go runtime panic (out-of-range slice
index) is modelled as an explicit outcome constructor.
-/

namespace TimeSeriesInsights

/-- Model of Go `strings.Split(s, sep)` for the single-character separator
used by the source (`"_"`): splits around every occurrence of the separator,
keeping empty substrings, so the result always has (number of separators + 1)
elements. Structural recursion over the character list. -/
def splitCharList (sep : Char) : List Char → List (List Char)
  | [] => [[]]
  | c :: cs =>
    match splitCharList sep cs with
    | [] => if c = sep then [[], []] else [[c]]
    | h :: t => if c = sep then [] :: h :: t else (c :: h) :: t

/-- Go `strings.Split(s, "_")`, as a function on `String`. -/
def goSplit (s : String) (sep : Char) : List String :=
  (splitCharList sep s.data).map (fun l => String.mk l)

/-- Model of Go `strconv.Atoi`: optional leading sign, then one or more
ASCII digits, value must fit in a signed 64-bit integer; every other input
(empty, stray characters, overflow) yields an error. -/
def goAtoi (s : String) : Except Unit Int :=
  match s.data with
  | [] => Except.error ()
  | c :: rest =>
    let (neg, digits) :=
      if c = '-' then (true, rest)
      else if c = '+' then (false, rest)
      else (false, c :: rest)
    if digits.isEmpty then Except.error ()
    else if digits.all Char.isDigit then
      let n : Nat := digits.foldl (fun acc d => acc * 10 + (d.toNat - '0'.toNat)) 0
      let v : Int := if neg then -(n : Int) else (n : Int)
      if v < -(2 ^ 63) || 2 ^ 63 - 1 < v then Except.error () else Except.ok v
    else Except.error ()

/-- Go conversion `int32(x)` from `int` (64-bit): two's-complement
truncation to 32 bits. -/
def toInt32 (x : Int) : Int :=
  if x % 2 ^ 32 < 2 ^ 31 then x % 2 ^ 32 else x % 2 ^ 32 - 2 ^ 32

/-- The SDK `timeseriesinsights.Sku`: `Name` is a string-typed enum
(`S1`/`S2` are its known constants), `Capacity` is `*int32`. -/
structure Sku where
  name : String
  capacity : Option Int
  deriving DecidableEq, Repr

/-- The `switch parts[0]` of `expandEnvironmentSkuName`: `"S1"` and `"S2"`
map to the SDK constants of the same spelling, anything else is unknown. -/
def tierName (t : String) : Option String :=
  if t = "S1" then some "S1"
  else if t = "S2" then some "S2"
  else none

/-- Possible outcomes of `expandEnvironmentSkuName`. `invalidCapacity`
carries the string the error message would cite; `panicIndexOutOfRange`
models the Go runtime panic raised when the error path evaluates
`parts[2]` on a slice that has no index 2. -/
inductive SkuExpandResult where
  | ok (sku : Sku)
  | malformedSku (partCount : Nat)
  | unknownTier (tier : String)
  | invalidCapacity (part : String)
  | panicIndexOutOfRange
  deriving DecidableEq, Repr

/-- `expandEnvironmentSkuName` (source lines 241-266): split on `_`,
require exactly two parts, map the first to a known tier, `Atoi` the
second; on `Atoi` error the source formats a message from `parts[2]`,
which does not exist when `len(parts) == 2`. -/
def expandEnvironmentSkuName (skuName : String) : SkuExpandResult :=
  let parts := goSplit skuName '_'
  match parts with
  | [p0, p1] =>
    match tierName p0 with
    | none => SkuExpandResult.unknownTier p0
    | some name =>
      match goAtoi p1 with
      | Except.ok capacity => SkuExpandResult.ok ⟨name, some (toInt32 capacity)⟩
      | Except.error _ =>
        match parts.get? 2 with
        | some p2 => SkuExpandResult.invalidCapacity p2
        | none => SkuExpandResult.panicIndexOutOfRange
  | _ => SkuExpandResult.malformedSku parts.length

/-- `flattenEnvironmentSkuName` (source lines 268-274): `""` when the input
pointer or its `Capacity` field is nil, otherwise `"{Name}_{Capacity}"`
(`%d` on an `int32` prints signed decimal). -/
def flattenEnvironmentSkuName (input : Option Sku) : String :=
  match input with
  | none => ""
  | some sku =>
    match sku.capacity with
    | none => ""
    | some capacity => sku.name ++ "_" ++ toString capacity

/-- One character of the class in the `name` schema regex
`^[-\w\._\(\)]+$` (source lines 48-51). Go's RE2 `\w` is ASCII
`[0-9A-Za-z_]`; the remaining class members are literals. -/
def isNameChar (c : Char) : Bool :=
  c.isAlphanum || c = '_' || c = '-' || c = '.' || c = '(' || c = ')'

/-- The `name` field's `ValidateFunc`: `validation.StringMatch` with the
anchored regex `^[-\w\._\(\)]+$`, i.e. at least one character and every
character in the class. The regex imposes no upper length bound. -/
def validateEnvironmentName (s : String) : Bool :=
  !s.data.isEmpty && s.data.all isNameChar

/-- The literal allow-list of the `sku_name` field's
`validation.StringInSlice` (source lines 61-82), case-sensitive. -/
def skuNameStrings : List String :=
  ["S1_1", "S1_2", "S1_3", "S1_4", "S1_5", "S1_6", "S1_7", "S1_8", "S1_9", "S1_10",
   "S2_1", "S2_2", "S2_3", "S2_4", "S2_5", "S2_6", "S2_7", "S2_8", "S2_9", "S2_10"]

/-- The `sku_name` field's `ValidateFunc`: membership in the allow-list
(`ignoreCase = false`, so exact string equality). -/
def validateSkuName (s : String) : Bool :=
  skuNameStrings.contains s

/-- True when `expandEnvironmentSkuName` returned a `Sku` (no error, no
panic). -/
def SkuExpandResult.isOk : SkuExpandResult → Bool
  | SkuExpandResult.ok _ => true
  | _ => false

/-- A SKU string is accepted by the adapter when it passes the schema
`ValidateFunc` and `expandEnvironmentSkuName` succeeds on it. -/
def acceptedSku (s : String) : Bool :=
  validateSkuName s && (expandEnvironmentSkuName s).isOk

/-- `StandardEnvironmentResourceProperties`, the fields Read copies out. -/
structure EnvProperties where
  storageLimitExceededBehavior : String
  dataRetentionTime : Option String
  deriving DecidableEq, Repr

/-- A resource value returned by the SDK `Get`: `isStandard` models
whether `AsStandardEnvironmentResource` succeeds; the remaining fields are
the (possibly nil) pointers the handlers dereference. -/
structure EnvironmentResource where
  isStandard : Bool
  id : Option String
  name : Option String
  location : Option String
  sku : Option Sku
  props : Option EnvProperties
  deriving DecidableEq, Repr

/-- The observable result of an SDK `Get` call: whether `err != nil`,
whether `utils.ResponseWasNotFound(resp.Response)` holds, and
`resp.Value` (nil or a resource). -/
structure GetEnvResponse where
  hasErr : Bool
  wasNotFound : Bool
  value : Option EnvironmentResource
  deriving DecidableEq, Repr

/-- The local state Read writes back through `d.Set` on success.
`azure.NormalizeLocation` is an excluded collaborator (spec scope), so the
location is carried as returned by the remote. -/
structure ReadState where
  name : Option String
  resourceGroup : String
  skuName : String
  location : Option String
  storageLimitExceededBehavior : Option String
  dataRetentionTime : Option (Option String)
  deriving DecidableEq, Repr

/-- Outcomes of the Read handler: `absent` is `d.SetId("")` followed by a
nil error (the local record is dropped); the two error constructors are
the handler's non-nil error returns. -/
inductive ReadOutcome where
  | absent
  | readError
  | notStandardError
  | ok (state : ReadState)
  deriving DecidableEq, Repr

/-- `resourceArmTimeSeriesInsightsEnvironmentRead` after ID parsing
(source lines 191-219): on `err != nil || resp.Value == nil`, a not-found
response clears the ID and returns nil, anything else is an error;
otherwise the resource must be a standard environment and its fields are
copied into the local state. -/
def readEnvironment (resourceGroup : String) (resp : GetEnvResponse) : ReadOutcome :=
  if resp.hasErr || resp.value.isNone then
    if resp.wasNotFound then ReadOutcome.absent else ReadOutcome.readError
  else
    match resp.value with
    | none => ReadOutcome.readError
    | some env =>
      if env.isStandard then
        ReadOutcome.ok
          { name := env.name
            resourceGroup := resourceGroup
            skuName := flattenEnvironmentSkuName env.sku
            location := env.location
            storageLimitExceededBehavior :=
              env.props.map (fun p => p.storageLimitExceededBehavior)
            dataRetentionTime := env.props.map (fun p => p.dataRetentionTime) }
      else ReadOutcome.notStandardError

/-- The observable result of the SDK `Delete` call. -/
structure DeleteResponse where
  hasErr : Bool
  wasNotFound : Bool
  deriving DecidableEq, Repr

/-- Outcomes of the Delete handler. -/
inductive DeleteOutcome where
  | success
  | deleteError
  deriving DecidableEq, Repr

/-- `resourceArmTimeSeriesInsightsEnvironmentDelete` after ID parsing
(source lines 231-238): an error is returned only when `err != nil` and
the response was not a not-found; every other case returns nil. -/
def deleteEnvironment (resp : DeleteResponse) : DeleteOutcome :=
  if resp.hasErr && !resp.wasNotFound then DeleteOutcome.deleteError
  else DeleteOutcome.success

/-- Outcomes of the CreateUpdate handler up to (and including) the
decision to issue the mutating `client.CreateOrUpdate` request. `mutate`
is the only constructor that issues a create/update request; every other
constructor is an early error return before any mutation. -/
inductive CreateOutcome where
  | skuError
  | preflightError
  | notStandardError
  | importAsExists (id : String)
  | mutate (sku : Sku)
  deriving DecidableEq, Repr

/-- `resourceArmTimeSeriesInsightsEnvironmentCreateUpdate` up to the
mutating request (source lines 107-153): expand the SKU first; when
import-protection is on and the resource is new, `Get` the existing
resource; a non-not-found `Get` error aborts; a present standard resource
with a non-empty ID aborts with `tf.ImportAsExistsError`; otherwise the
handler proceeds to `client.CreateOrUpdate`. -/
def createUpdateEnvironment (skuName : String) (shouldImport isNew : Bool)
    (existing : GetEnvResponse) : CreateOutcome :=
  match expandEnvironmentSkuName skuName with
  | SkuExpandResult.ok sku =>
    if shouldImport && isNew then
      if existing.hasErr && !existing.wasNotFound then CreateOutcome.preflightError
      else
        match existing.value with
        | some env =>
          if env.isStandard then
            match env.id with
            | some i =>
              if i ≠ "" then CreateOutcome.importAsExists i else CreateOutcome.mutate sku
            | none => CreateOutcome.mutate sku
          else CreateOutcome.notStandardError
        | none => CreateOutcome.mutate sku
    else CreateOutcome.mutate sku
  | _ => CreateOutcome.skuError

/-- C1: at the input `"S1_x"` — two parts, known tier, non-integer
capacity — the source does not return an invalid-capacity error: the
error path evaluates `parts[2]` on the two-element parts slice, which is a
runtime index-out-of-range panic. -/
theorem expand_sku_s1x_panics :
    goSplit "S1_x" '_' = ["S1", "x"] ∧ tierName "S1" = some "S1" ∧
      goAtoi "x" = Except.error () ∧
      expandEnvironmentSkuName "S1_x" = SkuExpandResult.panicIndexOutOfRange :=
  ⟨by decide, rfl, rfl, by decide⟩

/-- C2: for every tier in `{S1, S2}` and capacity in `[1, 10]`, expanding
the flattened SKU returns the same SKU; and every string of the enumerated
SKU set expands successfully to a SKU that flattens back to the same
string. -/
theorem sku_roundtrip :
    (∀ (t : String) (c : Int), (t = "S1" ∨ t = "S2") → 1 ≤ c → c ≤ 10 →
      expandEnvironmentSkuName (flattenEnvironmentSkuName (some ⟨t, some c⟩)) =
        SkuExpandResult.ok ⟨t, some c⟩) ∧
    (∀ s ∈ skuNameStrings, ∃ sku, expandEnvironmentSkuName s = SkuExpandResult.ok sku ∧
      flattenEnvironmentSkuName (some sku) = s) := by
  constructor
  · intro t c ht h1 h2
    rcases ht with rfl | rfl <;> interval_cases c <;> decide
  · intro s hs
    fin_cases hs <;> exact ⟨_, rfl, rfl⟩

/-- C2 witness at tier `S1`, capacity `5`. -/
theorem sku_roundtrip_witness :
    expandEnvironmentSkuName (flattenEnvironmentSkuName (some ⟨"S1", some 5⟩)) =
      SkuExpandResult.ok ⟨"S1", some 5⟩ :=
  sku_roundtrip.1 "S1" 5 (Or.inl rfl) (by decide) (by decide)

/-- C3: the name validation regex has no upper length bound, so the
91-character name `aaa…a` (91 `a`s) is accepted, although the claim (and
the code's own validation message, which demands 1-90 characters)
requires names longer than 90 characters to be rejected. -/
theorem validate_name_accepts_91_chars :
    (String.mk (List.replicate 91 'a')).length = 91 ∧
      validateEnvironmentName (String.mk (List.replicate 91 'a')) = true := by
  constructor <;> decide

/-- C4: a SKU string passes the schema validation and expands without
error exactly when it is one of the twenty enumerated SKU strings. -/
theorem acceptedSku_iff_mem (s : String) :
    acceptedSku s = true ↔ s ∈ skuNameStrings := by
  constructor
  · intro h
    simp only [acceptedSku, Bool.and_eq_true] at h
    simpa [validateSkuName, List.contains, List.elem_eq_mem] using h.1
  · intro h
    fin_cases h <;> decide

/-- C4 witness at the accepted string `"S1_3"`. -/
theorem acceptedSku_iff_mem_witness :
    acceptedSku "S1_3" = true ↔ "S1_3" ∈ skuNameStrings :=
  acceptedSku_iff_mem "S1_3"

/-- C5: when the remote `Get` reports not-found (an error whose response
was a not-found), the Read handler clears the local ID and returns no
error, i.e. the absent outcome. -/
theorem read_absent_on_not_found (rg : String) (resp : GetEnvResponse)
    (herr : resp.hasErr = true) (hnf : resp.wasNotFound = true) :
    readEnvironment rg resp = ReadOutcome.absent := by
  simp [readEnvironment, herr, hnf]

/-- C5 witness: a not-found `Get` response with nil value. -/
theorem read_absent_on_not_found_witness :
    readEnvironment "group1" ⟨true, true, none⟩ = ReadOutcome.absent :=
  read_absent_on_not_found "group1" ⟨true, true, none⟩ rfl rfl

/-- C6: when the remote `Delete` response was a not-found, the Delete
handler returns success, whether or not the call reported an error. -/
theorem delete_success_on_not_found (resp : DeleteResponse)
    (hnf : resp.wasNotFound = true) :
    deleteEnvironment resp = DeleteOutcome.success := by
  simp [deleteEnvironment, hnf]

/-- C6 witness: a delete whose response is an error marked not-found. -/
theorem delete_success_on_not_found_witness :
    deleteEnvironment ⟨true, true⟩ = DeleteOutcome.success :=
  delete_success_on_not_found ⟨true, true⟩ rfl

/-- C7: with import-protection enabled on a new resource, when the
pre-flight fetch succeeds and finds a standard environment bearing a
non-empty ID, CreateUpdate fails with the import-as-exists error naming
that ID, and never reaches the mutating request. -/
theorem createUpdate_import_protection (skuName : String) (sku : Sku)
    (existing : GetEnvResponse) (env : EnvironmentResource) (i : String)
    (hsku : expandEnvironmentSkuName skuName = SkuExpandResult.ok sku)
    (hfetch : existing.hasErr = false)
    (hval : existing.value = some env)
    (hstd : env.isStandard = true)
    (hid : env.id = some i)
    (hne : i ≠ "") :
    createUpdateEnvironment skuName true true existing = CreateOutcome.importAsExists i ∧
      ∀ sku2, createUpdateEnvironment skuName true true existing ≠ CreateOutcome.mutate sku2 := by
  have h : createUpdateEnvironment skuName true true existing = CreateOutcome.importAsExists i := by
    unfold createUpdateEnvironment
    rw [hsku]
    simp [hfetch, hval, hstd, hid, hne]
  exact ⟨h, fun sku2 => by rw [h]; simp⟩

/-- C7 witness: a new resource with SKU `"S1_1"` colliding with an
existing standard environment whose ID is `"someId"`. -/
theorem createUpdate_import_protection_witness :
    createUpdateEnvironment "S1_1" true true
        ⟨false, false, some ⟨true, some "someId", none, none, none, none⟩⟩ =
      CreateOutcome.importAsExists "someId" ∧
    ∀ sku2, createUpdateEnvironment "S1_1" true true
        ⟨false, false, some ⟨true, some "someId", none, none, none, none⟩⟩ ≠
      CreateOutcome.mutate sku2 :=
  createUpdate_import_protection "S1_1" ⟨"S1", some 1⟩
    ⟨false, false, some ⟨true, some "someId", none, none, none, none⟩⟩
    ⟨true, some "someId", none, none, none, none⟩ "someId"
    (by decide) rfl rfl rfl rfl (by decide)

/-- C8: every input whose split on `_` does not have exactly two parts is
rejected with the malformed-SKU error (carrying the part count), so no
`Sku` is returned. -/
theorem expand_malformed_on_wrong_parts (s : String)
    (h : (goSplit s '_').length ≠ 2) :
    expandEnvironmentSkuName s = SkuExpandResult.malformedSku (goSplit s '_').length := by
  unfold expandEnvironmentSkuName
  rcases hgs : goSplit s '_' with _ | ⟨p0, _ | ⟨p1, _ | ⟨p2, rest⟩⟩⟩ <;>
    first
      | rfl
      | exact absurd (by rw [hgs]; rfl) h

/-- C8 witness: `"S1"` splits into one part and is rejected as malformed. -/
theorem expand_malformed_on_wrong_parts_witness :
    (goSplit "S1" '_').length = 1 ∧
      expandEnvironmentSkuName "S1" = SkuExpandResult.malformedSku (goSplit "S1" '_').length :=
  ⟨by decide, expand_malformed_on_wrong_parts "S1" (by decide)⟩

/-- C9: flattening is total and defensive: it yields the empty string
both when the whole `Sku` pointer is nil and when only the capacity
pointer is nil, for any tier name. -/
theorem flatten_empty_on_missing :
    flattenEnvironmentSkuName none = "" ∧
      ∀ nm : String, flattenEnvironmentSkuName (some ⟨nm, none⟩) = "" :=
  ⟨rfl, fun _ => rfl⟩

/-- C9 witness at the tier name `"S1"` with absent capacity. -/
theorem flatten_empty_on_missing_witness :
    flattenEnvironmentSkuName (some ⟨"S1", none⟩) = "" :=
  flatten_empty_on_missing.2 "S1"

/-- C10: when the tier is known and the capacity digits parse (fitting a
signed 64-bit integer) to a value outside the signed 32-bit range, the
expansion still succeeds and stores the value truncated to 32 bits: a
capacity different from the parsed value but congruent to it modulo
`2 ^ 32`. -/
theorem expand_truncates_int32 (s t p : String) (n : Int)
    (hsplit : goSplit s '_' = [t, p])
    (ht : t = "S1" ∨ t = "S2")
    (hatoi : goAtoi p = Except.ok n)
    (hbig : n < -(2 ^ 31) ∨ 2 ^ 31 ≤ n) :
    expandEnvironmentSkuName s = SkuExpandResult.ok ⟨t, some (toInt32 n)⟩ ∧
      toInt32 n ≠ n ∧ toInt32 n % 2 ^ 32 = n % 2 ^ 32 := by
  refine ⟨?_, ?_, ?_⟩
  · unfold expandEnvironmentSkuName
    rw [hsplit]
    rcases ht with rfl | rfl <;> simp [tierName, hatoi]
  · have hm0 : 0 ≤ n % 2 ^ 32 := Int.emod_nonneg n (by norm_num)
    have hm1 : n % 2 ^ 32 < 2 ^ 32 := Int.emod_lt_of_pos n (by norm_num)
    unfold toInt32
    split <;> omega
  · unfold toInt32
    split <;> omega

/-- C10 witness: `"S1_4294967297"` (capacity `2 ^ 32 + 1`) expands
successfully with capacity truncated to `1`. -/
theorem expand_truncates_int32_witness :
    toInt32 4294967297 = 1 ∧
      (expandEnvironmentSkuName "S1_4294967297" =
          SkuExpandResult.ok ⟨"S1", some (toInt32 4294967297)⟩ ∧
        toInt32 4294967297 ≠ 4294967297 ∧
        toInt32 4294967297 % 2 ^ 32 = 4294967297 % 2 ^ 32) :=
  ⟨by decide,
    expand_truncates_int32 "S1_4294967297" "S1" "4294967297" 4294967297
      (by decide) (Or.inl rfl) rfl (Or.inr (by decide))⟩

end TimeSeriesInsights
